import Mathlib

/-!
Verification of the RelayPulseTarui core (src/src-tauri/src/lib.rs): the
interval store guarded by a mutex, the `fetch_status` command, and the tray
menu / tray icon event handlers registered in `run`.

The Rust code is shallowly embedded: `u64` values are `Nat` (with explicit
`< 2 ^ 64` bounds where a claim quantifies over u64 inputs), the mutex is a
record carrying its value and a poisoned flag, panics (`.unwrap()` on a
poisoned lock) are `Option.none`, and fallible operations return `Except`.
The network is abstracted as an outcome the environment delivers to
`fetch_status`: the send can fail, the body decode can fail, or a body
string arrives.  JSON parsing (the `serde_json::from_str::<Value>` call,
an external library) is modelled by an executable RFC 8259 recursive
descent parser over a lossless syntactic value type.
-/

/-- Lossless syntactic representation of a JSON number token: sign,
integer part, fraction digits and optional signed exponent, exactly as
written in the source text. -/
structure JsonNumber where
  neg : Bool
  intPart : Nat
  frac : List Nat
  exp : Option Int
deriving DecidableEq, Repr

/-- The number `n` as it is written without sign, fraction or exponent. -/
def JsonNumber.ofNat (n : Nat) : JsonNumber :=
  ⟨false, n, [], none⟩

/-- A generic JSON tree value, the model of `serde_json::Value`. -/
inductive JsonValue where
  | null
  | bool (b : Bool)
  | num (n : JsonNumber)
  | str (s : String)
  | arr (items : List JsonValue)
  | obj (fields : List (String × JsonValue))
deriving Repr

/-- JSON insignificant whitespace characters. -/
def isJsonWs (c : Char) : Bool :=
  c = ' ' || c = '\t' || c = '\n' || c = '\r'

/-- Drop leading JSON whitespace. -/
def skipWs : List Char → List Char
  | [] => []
  | c :: cs => if isJsonWs c then skipWs cs else c :: cs

/-- Take the longest run of leading decimal digits, as digit values. -/
def takeDigits : List Char → List Nat × List Char
  | [] => ([], [])
  | c :: cs =>
    if c.isDigit then
      let (ds, rest) := takeDigits cs
      ((c.toNat - 48) :: ds, rest)
    else ([], c :: cs)

/-- Value of a digit list read in base 10. -/
def digitsToNat (ds : List Nat) : Nat :=
  ds.foldl (fun acc d => acc * 10 + d) 0

/-- Value of a hexadecimal digit character, if it is one. -/
def hexDigitVal (c : Char) : Option Nat :=
  if '0' ≤ c ∧ c ≤ '9' then some (c.toNat - 48)
  else if 'a' ≤ c ∧ c ≤ 'f' then some (c.toNat - 87)
  else if 'A' ≤ c ∧ c ≤ 'F' then some (c.toNat - 55)
  else none

/-- Read exactly four hex digits (the payload of a u-escape). -/
def parseHex4 : List Char → Except String (Nat × List Char)
  | c1 :: c2 :: c3 :: c4 :: rest =>
    match hexDigitVal c1, hexDigitVal c2, hexDigitVal c3, hexDigitVal c4 with
    | some a, some b, some c, some d => .ok (((a * 16 + b) * 16 + c) * 16 + d, rest)
    | _, _, _, _ => .error "invalid hex escape"
  | _ => .error "unexpected end of hex escape"

/-- Body of a JSON string after the opening quote: ordinary characters,
single-character escapes and u-escapes with surrogate pairing, up to the
closing quote. -/
def parseStringBody (fuel : Nat) (acc : List Char) (cs : List Char) :
    Except String (String × List Char) :=
  match fuel with
  | 0 => .error "string too long"
  | fuel + 1 =>
    match cs with
    | [] => .error "unterminated string"
    | '"' :: rest => .ok (String.mk acc.reverse, rest)
    | '\\' :: e :: rest =>
      match e with
      | '"' => parseStringBody fuel ('"' :: acc) rest
      | '\\' => parseStringBody fuel ('\\' :: acc) rest
      | '/' => parseStringBody fuel ('/' :: acc) rest
      | 'b' => parseStringBody fuel ('\x08' :: acc) rest
      | 'f' => parseStringBody fuel ('\x0c' :: acc) rest
      | 'n' => parseStringBody fuel ('\n' :: acc) rest
      | 'r' => parseStringBody fuel ('\r' :: acc) rest
      | 't' => parseStringBody fuel ('\t' :: acc) rest
      | 'u' =>
        match parseHex4 rest with
        | .error msg => .error msg
        | .ok (n, rest2) =>
          if 0xD800 ≤ n ∧ n ≤ 0xDBFF then
            match rest2 with
            | '\\' :: 'u' :: rest3 =>
              match parseHex4 rest3 with
              | .error msg => .error msg
              | .ok (n2, rest4) =>
                if 0xDC00 ≤ n2 ∧ n2 ≤ 0xDFFF then
                  let cp := 0x10000 + (n - 0xD800) * 0x400 + (n2 - 0xDC00)
                  parseStringBody fuel (Char.ofNat cp :: acc) rest4
                else .error "unexpected low surrogate"
            | _ => .error "unexpected end of surrogate pair"
          else if 0xDC00 ≤ n ∧ n ≤ 0xDFFF then .error "lone surrogate"
          else parseStringBody fuel (Char.ofNat n :: acc) rest2
      | _ => .error "invalid escape"
    | ['\\'] => .error "unterminated string"
    | c :: rest =>
      if c.toNat < 0x20 then .error "control character in string"
      else parseStringBody fuel (c :: acc) rest

/-- Optional fraction part of a number: dot followed by at least one digit. -/
def parseFrac : List Char → Except String (List Nat × List Char)
  | '.' :: rest =>
    let (ds, rest2) := takeDigits rest
    if ds.isEmpty then .error "expected digits after decimal point"
    else .ok (ds, rest2)
  | cs => .ok ([], cs)

/-- Optional exponent part of a number: e or E, optional sign, digits. -/
def parseExp : List Char → Except String (Option Int × List Char)
  | c :: rest =>
    if c = 'e' || c = 'E' then
      let (sgn, rest1) : Int × List Char :=
        match rest with
        | '+' :: r => (1, r)
        | '-' :: r => (-1, r)
        | r => (1, r)
      let (ds, rest2) := takeDigits rest1
      if ds.isEmpty then .error "expected exponent digits"
      else .ok (some (sgn * (digitsToNat ds : Int)), rest2)
    else .ok (none, c :: rest)
  | [] => .ok (none, [])

/-- Fraction and exponent after the integer part of a number. -/
def afterInt (neg : Bool) (ip : Nat) (cs : List Char) :
    Except String (JsonNumber × List Char) :=
  match parseFrac cs with
  | .error msg => .error msg
  | .ok (fr, cs1) =>
    match parseExp cs1 with
    | .error msg => .error msg
    | .ok (ex, cs2) => .ok (⟨neg, ip, fr, ex⟩, cs2)

/-- A JSON number token: optional minus, integer part with no leading
zeros, optional fraction and exponent. -/
def parseNumber (cs : List Char) : Except String (JsonNumber × List Char) :=
  let (neg, cs1) : Bool × List Char :=
    match cs with
    | '-' :: rest => (true, rest)
    | _ => (false, cs)
  match cs1 with
  | '0' :: c :: rest =>
    if c.isDigit then .error "leading zero in number"
    else afterInt neg 0 (c :: rest)
  | ['0'] => afterInt neg 0 []
  | c :: rest =>
    if c.isDigit then
      let (ds, rest2) := takeDigits rest
      afterInt neg (digitsToNat ((c.toNat - 48) :: ds)) rest2
    else .error "invalid number"
  | [] => .error "unexpected end of input"

mutual

/-- One JSON value, consuming leading whitespace; fuel bounds the
recursion depth. -/
def parseValue : Nat → List Char → Except String (JsonValue × List Char)
  | 0, _ => .error "recursion limit exceeded"
  | fuel + 1, cs =>
    match skipWs cs with
    | [] => .error "unexpected end of input"
    | 'n' :: 'u' :: 'l' :: 'l' :: rest => .ok (.null, rest)
    | 't' :: 'r' :: 'u' :: 'e' :: rest => .ok (.bool true, rest)
    | 'f' :: 'a' :: 'l' :: 's' :: 'e' :: rest => .ok (.bool false, rest)
    | '"' :: rest =>
      match parseStringBody (rest.length + 1) [] rest with
      | .error msg => .error msg
      | .ok (s, rest2) => .ok (.str s, rest2)
    | '[' :: rest =>
      (match skipWs rest with
       | ']' :: rest2 => .ok (.arr [], rest2)
       | cs2 => parseArrayItems fuel [] cs2)
    | '\x7b' :: rest =>
      (match skipWs rest with
       | '\x7d' :: rest2 => .ok (.obj [], rest2)
       | cs2 => parseObjectItems fuel [] cs2)
    | cs2 =>
      match parseNumber cs2 with
      | .error msg => .error msg
      | .ok (n, rest) => .ok (.num n, rest)

/-- Remaining items of a non-empty array, accumulated in reverse. -/
def parseArrayItems (fuel : Nat) (acc : List JsonValue) (cs : List Char) :
    Except String (JsonValue × List Char) :=
  match fuel with
  | 0 => .error "recursion limit exceeded"
  | fuel + 1 =>
    match parseValue fuel cs with
    | .error msg => .error msg
    | .ok (v, rest) =>
      match skipWs rest with
      | ',' :: rest2 => parseArrayItems fuel (v :: acc) rest2
      | ']' :: rest2 => .ok (.arr (v :: acc).reverse, rest2)
      | _ => .error "expected comma or end of array"

/-- Remaining members of a non-empty object, accumulated in reverse. -/
def parseObjectItems (fuel : Nat) (acc : List (String × JsonValue)) (cs : List Char) :
    Except String (JsonValue × List Char) :=
  match fuel with
  | 0 => .error "recursion limit exceeded"
  | fuel + 1 =>
    match skipWs cs with
    | '"' :: rest =>
      match parseStringBody (rest.length + 1) [] rest with
      | .error msg => .error msg
      | .ok (key, rest2) =>
        match skipWs rest2 with
        | ':' :: rest3 =>
          match parseValue fuel rest3 with
          | .error msg => .error msg
          | .ok (v, rest4) =>
            match skipWs rest4 with
            | ',' :: rest5 => parseObjectItems fuel ((key, v) :: acc) rest5
            | '\x7d' :: rest5 => .ok (.obj ((key, v) :: acc).reverse, rest5)
            | _ => .error "expected comma or end of object"
        | _ => .error "expected colon"
    | _ => .error "expected object key"

end

namespace SerdeJson

/-- Model of `serde_json::from_str::<Value>`: parse one JSON document with
surrounding whitespace allowed and nothing else trailing. -/
def from_str (s : String) : Except String JsonValue :=
  match parseValue (s.length + 1) s.toList with
  | .error msg => .error msg
  | .ok (v, rest) =>
    match skipWs rest with
    | [] => .ok v
    | _ => .error "trailing characters"

end SerdeJson

/-- Outcome the network environment delivers to one `fetch_status` call:
the send itself fails, reading the body as text fails, or a body string is
received.  The carried strings are the stringified errors
(`e.to_string()`) respectively the body text. -/
inductive NetOutcome where
  | sendErr (msg : String)
  | textErr (msg : String)
  | body (text : String)
deriving DecidableEq, Repr

/-- The `fetch_status` command: send the request, read the body as text,
parse it as JSON; each failure is stringified by `map_err(|e| e.to_string())`
and propagated by the question-mark operator. -/
def fetch_status (net : NetOutcome) : Except String JsonValue :=
  match net with
  | .sendErr e => .error e
  | .textErr e => .error e
  | .body resp =>
    match SerdeJson.from_str resp with
    | .error e => .error e
    | .ok json => .ok json

/-- The mutex around the interval: its u64 contents and whether a thread
panicked while holding the lock.  `Mutex::new(v)` yields an unpoisoned
mutex holding `v`. -/
structure MutexU64 where
  value : Nat
  poisoned : Bool
deriving DecidableEq, Repr

/-- The managed application state: `struct AppState { interval: Mutex<u64> }`. -/
structure AppState where
  interval : MutexU64
deriving DecidableEq, Repr

/-- The state installed by `run` via `.manage(AppState { interval: Mutex::new(5000) })`. -/
def initState : AppState :=
  ⟨⟨5000, false⟩⟩

/-- The `set_interval` command: `*state.interval.lock().unwrap() = ms`.
`lock()` returns an error on a poisoned mutex and `.unwrap()` then panics,
modelled as `none`; otherwise the stored value is overwritten with `ms`. -/
def set_interval (s : AppState) (ms : Nat) : Option AppState :=
  if s.interval.poisoned then none
  else some ⟨⟨ms, s.interval.poisoned⟩⟩

/-- The `get_interval` command: `*state.interval.lock().unwrap()`, a panic
on a poisoned mutex and the stored value otherwise. -/
def get_interval (s : AppState) : Option Nat :=
  if s.interval.poisoned then none
  else some s.interval.value

/-- The `fetch_status` command takes no `State` argument, so invoking it
against managed state `s` returns its result and leaves `s` untouched. -/
def invoke_fetch_status (s : AppState) (net : NetOutcome) :
    (Except String JsonValue) × AppState :=
  (fetch_status net, s)

/-- App states reachable from the managed initial state under the three
commands; `get_interval` and `fetch_status` do not change the state, so
only successful `set_interval` calls appear as steps. -/
inductive Reachable : AppState → Prop
  | init : Reachable initState
  | set (s s' : AppState) (ms : Nat) :
      Reachable s → set_interval s ms = some s' → Reachable s'

/-- A webview window: visibility and focus, the two attributes the tray
handlers touch via `window.show()` and `window.set_focus()`. -/
structure Window where
  visible : Bool
  focused : Bool
deriving DecidableEq, Repr

/-- `window.show()`. -/
def Window.show (w : Window) : Window :=
  { w with visible := true }

/-- `window.set_focus()`. -/
def Window.set_focus (w : Window) : Window :=
  { w with focused := true }

/-- State of the running application as the tray handlers see it: the
managed `AppState`, the labelled webview windows, and the exit code once
`app.exit` has been called. -/
structure SysState where
  appState : AppState
  windows : List (String × Window)
  exitCode : Option Int
deriving DecidableEq, Repr

/-- `app.get_webview_window(label)`. -/
def get_webview_window (s : SysState) (label : String) : Option Window :=
  s.windows.lookup label

/-- Replace the window stored under `label`. -/
def update_window (s : SysState) (label : String) (w : Window) : SysState :=
  { s with windows := s.windows.map (fun p => if p.1 = label then (label, w) else p) }

/-- `app.exit(code)`. -/
def app_exit (s : SysState) (code : Int) : SysState :=
  { s with exitCode := some code }

/-- The `on_menu_event` handler: on id "show", show and focus the main
window when it exists and do nothing otherwise; on id "quit", exit with
code 0; any other id falls to the wildcard arm and does nothing. -/
def on_menu_event (s : SysState) (eventId : String) : SysState :=
  if eventId = "show" then
    match get_webview_window s "main" with
    | some window => update_window s "main" window.show.set_focus
    | none => s
  else if eventId = "quit" then app_exit s 0
  else s

/-- Mouse buttons of a tray icon click. -/
inductive MouseButton where
  | left
  | right
  | middle
deriving DecidableEq, Repr

/-- Whether the reported click is a press or a release. -/
inductive MouseButtonState where
  | up
  | down
deriving DecidableEq, Repr

/-- Tray icon events; the handler only matches `Click` with the left
button, every other field of `Click` is ignored by its pattern. -/
inductive TrayIconEvent where
  | click (button : MouseButton) (buttonState : MouseButtonState)
  | doubleClick (button : MouseButton)
  | enter
  | move_
  | leave
deriving DecidableEq, Repr

/-- The `on_tray_icon_event` handler: a left-button `Click` shows and
focuses the main window when it exists; everything else is ignored. -/
def on_tray_icon_event (s : SysState) (ev : TrayIconEvent) : SysState :=
  match ev with
  | .click .left _ =>
    (match get_webview_window s "main" with
     | some window => update_window s "main" window.show.set_focus
     | none => s)
  | _ => s

/-- In this program no critical section can panic, so no reachable state
has a poisoned interval mutex. -/
theorem reachable_not_poisoned (s : AppState) (h : Reachable s) :
    s.interval.poisoned = false := by
  induction h with
  | init => rfl
  | set t t' ms _ hset ih =>
    simp [set_interval, ih] at hset
    simp [← hset, ih]

/-- C1: for every u64 value ms, a successful set_interval ms followed by
get_interval with no intervening set_interval returns exactly ms. -/
theorem set_then_get_roundtrip (s s' : AppState) (ms : Nat)
    (hms : ms < 2 ^ 64) (hset : set_interval s ms = some s') :
    get_interval s' = some ms := by
  by_cases hp : s.interval.poisoned <;> simp [set_interval, hp] at hset
  simp [get_interval, ← hset]

/-- Witness for C1 at the initial state and ms = 42. -/
theorem set_then_get_roundtrip_witness :
    42 < 2 ^ 64 ∧ set_interval initState 42 = some ⟨⟨42, false⟩⟩ ∧
      get_interval ⟨⟨42, false⟩⟩ = some 42 :=
  ⟨by norm_num, rfl,
    set_then_get_roundtrip initState ⟨⟨42, false⟩⟩ 42 (by norm_num) rfl⟩

/-- C2: in the state installed at construction, before any set_interval,
get_interval returns the default 5000. -/
theorem default_interval_is_5000 : get_interval initState = some 5000 := rfl

/-- C3: fetch_status fails exactly when the send fails, the body decode
fails, or the body is malformed JSON, and every failure is surfaced as the
single string msg carried by the error; there is no other failure and no
retry or partial result in the remaining (success) case. -/
theorem fetch_status_error_cases (net : NetOutcome) (msg : String) :
    fetch_status net = .error msg ↔
      net = .sendErr msg ∨ net = .textErr msg ∨
        ∃ b, net = .body b ∧ SerdeJson.from_str b = .error msg := by
  cases net with
  | sendErr e => simp [fetch_status]
  | textErr e => simp [fetch_status]
  | body b => cases hb : SerdeJson.from_str b <;> simp [fetch_status, hb]

/-- C4: a body that is valid JSON makes fetch_status return Ok with the
parsed value (in particular the body rendering the object with field "a"
mapped to 1 yields exactly that object); a syntactically invalid body
yields the parser's error; an unreachable responder yields the transport
error. -/
theorem fetch_status_result_cases :
    fetch_status (.body "\x7b\x22a\x22:1\x7d")
        = .ok (.obj [("a", .num (JsonNumber.ofNat 1))]) ∧
    (∀ b v, SerdeJson.from_str b = .ok v → fetch_status (.body b) = .ok v) ∧
    (∀ b msg, SerdeJson.from_str b = .error msg →
      fetch_status (.body b) = .error msg) ∧
    (∀ msg, fetch_status (.sendErr msg) = .error msg) := by
  refine ⟨rfl, ?_, ?_, fun msg => rfl⟩
  · intro b v h
    simp [fetch_status, h]
  · intro b msg h
    simp [fetch_status, h]

/-- Witness for C4 on concrete bodies: a valid JSON array and a malformed
body. -/
theorem fetch_status_result_cases_witness :
    fetch_status (.body "[1,2]")
        = .ok (.arr [.num (JsonNumber.ofNat 1), .num (JsonNumber.ofNat 2)]) ∧
    fetch_status (.body "nope") = .error "invalid number" :=
  ⟨fetch_status_result_cases.2.1 _ _ rfl,
    fetch_status_result_cases.2.2.1 _ _ rfl⟩

/-- C5: fetch_status takes no state argument, so invoking it leaves the
managed state exactly as it was, whether it succeeds or fails; in
particular get_interval reads the same value before and after. -/
theorem fetch_status_frame (s : AppState) (net : NetOutcome) :
    (invoke_fetch_status s net).2 = s ∧
    get_interval (invoke_fetch_status s net).2 = get_interval s :=
  ⟨rfl, rfl⟩

/-- C6: in every reachable state, set_interval accepts any ms (including
0) with no validation, unconditionally overwrites the stored value with
ms, returns no value beyond the updated state, and never fails. -/
theorem set_interval_total (s : AppState) (ms : Nat) (h : Reachable s) :
    set_interval s ms = some ⟨⟨ms, false⟩⟩ := by
  simp [set_interval, reachable_not_poisoned s h]

/-- Witness for C6 at the initial state with ms = 0. -/
theorem set_interval_total_witness :
    set_interval initState 0 = some ⟨⟨0, false⟩⟩ :=
  set_interval_total initState 0 Reachable.init

/-- C7: a "show" menu event with no main window is a silent no-op — the
handler returns, the whole state (hence the stored interval) is unchanged —
and any event id other than "show" and "quit" is silently ignored. -/
theorem show_event_no_window_noop (s : SysState) (eventId : String)
    (hwin : get_webview_window s "main" = none)
    (hshow : eventId ≠ "show") (hquit : eventId ≠ "quit") :
    on_menu_event s "show" = s ∧
    get_interval (on_menu_event s "show").appState = get_interval s.appState ∧
    on_menu_event s eventId = s := by
  have h1 : on_menu_event s "show" = s := by
    simp [on_menu_event, hwin]
  exact ⟨h1, by rw [h1], by simp [on_menu_event, hshow, hquit]⟩

/-- Witness for C7 in a windowless state with the unrecognized id "other". -/
theorem show_event_no_window_noop_witness :
    on_menu_event ⟨initState, [], none⟩ "show" = ⟨initState, [], none⟩ ∧
    get_interval (on_menu_event ⟨initState, [], none⟩ "show").appState
        = get_interval initState ∧
    on_menu_event ⟨initState, [], none⟩ "other" = ⟨initState, [], none⟩ :=
  show_event_no_window_noop ⟨initState, [], none⟩ "other" rfl
    (by decide) (by decide)

/-- C8: a "quit" menu event calls app.exit 0 in every state — whatever the
windows and the rest of the state are, the handler returns that state with
exit code 0 recorded. -/
theorem quit_event_exits_zero (s : SysState) :
    on_menu_event s "quit" = { s with exitCode := some 0 } ∧
    (on_menu_event s "quit").exitCode = some 0 := by
  have h : on_menu_event s "quit" = { s with exitCode := some 0 } := by
    simp [on_menu_event, app_exit]
  exact ⟨h, by rw [h]⟩

/-- C9: in every state, a left-button click on the tray icon has exactly
the same effect as the "show" menu event. -/
theorem left_click_equals_show_event (s : SysState) (bs : MouseButtonState) :
    on_tray_icon_event s (.click .left bs) = on_menu_event s "show" := by
  cases h : get_webview_window s "main" <;>
    simp [on_tray_icon_event, on_menu_event, h]

/-- C10: set_interval and get_interval succeed exactly when the interval
mutex is not poisoned — under that precondition the lock-unwrap panic is
unreachable and neither operation can fail; when the mutex is poisoned
both panic. -/
theorem lock_unwrap_total_iff_unpoisoned (s : AppState) (ms : Nat) :
    ((set_interval s ms).isSome ↔ s.interval.poisoned = false) ∧
    ((get_interval s).isSome ↔ s.interval.poisoned = false) := by
  by_cases hp : s.interval.poisoned <;>
    simp [set_interval, get_interval, hp]
